import Mathlib

set_option maxRecDepth 10000

/-!
Verification of the article-search service in `api.py`.

The embedding models, in order:
* the tokenizer used by the scorer — Python's `re.findall(r'\b[a-zA-Z]{3,}\b', s)`
  on a lowercased string, modelled (over the ASCII fragment, which is all the
  claims need) as a left-to-right scan that tracks whether the previous
  character was a word character (`[A-Za-z0-9_]`), since `\b` holds exactly
  between a word and a non-word character;
* `calculate_similarity`, `find_similar_articles` (scoring, filtering, the
  stable descending sort by `(similarity, claps)`, truncation and projection);
* `load_articles` over an abstract file state (missing file / rows read
  successfully / an exception raised after a number of rows were processed,
  which the code catches after having already appended those rows);
* the `/search` POST and GET handlers.

Python floats are modelled as exact rationals (`ℚ`); `round(x, 3)` as
round-half-to-even at three decimal places; `int(...)` string parsing as
`parsePyInt` (optional surrounding whitespace, optional sign, digits with
single underscores between digits, as in Python 3).
-/

/-- ASCII letter, the regex character class `[a-zA-Z]`. -/
def isAsciiLetter (c : Char) : Bool :=
  ('a' ≤ c && c ≤ 'z') || ('A' ≤ c && c ≤ 'Z')

/-- Word character for the regex word-boundary `\b`: `[A-Za-z0-9_]`
(ASCII fragment of Python's `\w`). -/
def isWordChar (c : Char) : Bool :=
  isAsciiLetter c || ('0' ≤ c && c ≤ '9') || c == '_'

/-- `str.lower()` on one character (ASCII fragment). -/
def lowerChar (c : Char) : Char :=
  if 'A' ≤ c && c ≤ 'Z' then Char.ofNat (c.toNat + 32) else c

/-- `str.lower()`. -/
def pyLower (s : String) : String :=
  String.mk (s.data.map lowerChar)

/-- Python whitespace stripped by `str.strip()` (ASCII fragment). -/
def pyIsSpace (c : Char) : Bool :=
  c == ' ' || c == '\t' || c == '\n' || c == '\r' || c == '\x0b' || c == '\x0c'

/-- `str.strip()`. -/
def pyStrip (s : String) : String :=
  String.mk (((s.data.dropWhile pyIsSpace).reverse.dropWhile pyIsSpace).reverse)

/-- State of the scan modelling `re.findall(r'\b[a-zA-Z]{3,}\b', s)`:
`out` — the previous character (if any) was not a word character, so a match
may start here; `poisoned` — the previous character was a word character and
the current position is inside or right after a word run that cannot start a
match; `run cs` — currently inside a candidate all-letter run whose characters
so far are `cs` (reversed). -/
inductive ScanSt where
  | out
  | poisoned
  | run (cs : List Char)

/-- The regex scan itself.  A candidate letter run becomes a match when it is
at least 3 letters long and ends at a non-word character or at the end of the
input (both `\b` conditions hold); a letter run followed by a digit or an
underscore fails the trailing `\b` and yields nothing, and no match can start
inside a word run. -/
def scanTokens : ScanSt → List Char → List String
  | .out, [] => []
  | .poisoned, [] => []
  | .run cs, [] => if 3 ≤ cs.length then [String.mk cs.reverse] else []
  | .out, c :: rest =>
    if isAsciiLetter c then scanTokens (.run [c]) rest
    else if isWordChar c then scanTokens .poisoned rest
    else scanTokens .out rest
  | .poisoned, c :: rest =>
    if isWordChar c then scanTokens .poisoned rest else scanTokens .out rest
  | .run cs, c :: rest =>
    if isAsciiLetter c then scanTokens (.run (c :: cs)) rest
    else if isWordChar c then scanTokens .poisoned rest
    else
      (if 3 ≤ cs.length then [String.mk cs.reverse] else []) ++ scanTokens .out rest

/-- `set(re.findall(r'\b[a-zA-Z]{3,}\b', s))`. -/
def findWords (s : String) : Finset String :=
  (scanTokens .out s.data).toFinset

/-- The token set the scorer derives from a string: lowercase, then extract
the regex matches (`api.py` lines 55-56 and 64). -/
def tokenize (s : String) : Finset String :=
  findWords (pyLower s)

/-- `needle` is a prefix of `hay` (character lists). -/
def listStartsWith : List Char → List Char → Bool
  | [], _ => true
  | _ :: _, [] => false
  | a :: as, b :: bs => a == b && listStartsWith as bs

/-- `needle` occurs somewhere inside `hay` (character lists). -/
def listHasSub (needle : List Char) : List Char → Bool
  | [] => needle.isEmpty
  | c :: rest => listStartsWith needle (c :: rest) || listHasSub needle rest

/-- Python's substring containment `a in b` on strings. -/
def isSubstr (a b : String) : Bool :=
  listHasSub a.data b.data

/-- An article record as `calculate_similarity` and `find_similar_articles`
see it: a loosely-typed mapping where any field may be absent.  `claps` is an
integer when present (the loader coerces it). -/
structure Article where
  url : Option String
  title : Option String
  subtitle : Option String
  text : Option String
  keywords : Option String
  claps : Option Int
deriving DecidableEq

/-- A raw CSV row as `csv.DictReader` yields it: all fields are strings, any
may be absent. -/
structure Row where
  url : Option String
  title : Option String
  subtitle : Option String
  text : Option String
  keywords : Option String
  claps : Option String
deriving DecidableEq

/-- Digit accumulator of `parsePyInt`: digits with single underscores allowed
between digits, as Python's `int` accepts. -/
def digitsAux : Nat → List Char → Option Nat
  | acc, [] => some acc
  | acc, c :: cs =>
    if c.isDigit then digitsAux (10 * acc + (c.toNat - 48)) cs
    else if c == '_' then
      match cs with
      | [] => none
      | d :: cs2 =>
        if d.isDigit then digitsAux (10 * acc + (d.toNat - 48)) cs2 else none
    else none

/-- Decode a nonempty digit sequence (underscores between digits allowed). -/
def decodeDigits : List Char → Option Nat
  | [] => none
  | c :: cs => if c.isDigit then digitsAux (c.toNat - 48) cs else none

/-- Python's `int(s)` on a string: optional surrounding whitespace, optional
sign, then digits; `none` when the parse fails (Python raises `ValueError`). -/
def parsePyInt (s : String) : Option Int :=
  let t := ((s.data.dropWhile pyIsSpace).reverse.dropWhile pyIsSpace).reverse
  match t with
  | '+' :: rest => (decodeDigits rest).map (fun n => (n : Int))
  | '-' :: rest => (decodeDigits rest).map (fun n => -(n : Int))
  | rest => (decodeDigits rest).map (fun n => (n : Int))

/-- `int(row.get('claps', 0) or 0)` with `ValueError`/`TypeError` caught and
defaulted to `0` (`api.py` lines 31-34): an absent value or the empty string
short-circuits through `or 0`; anything else is parsed, and a failed parse
yields `0`. -/
def parseClaps (v : Option String) : Int :=
  match v with
  | none => 0
  | some s => if s = "" then 0 else (parsePyInt s).getD 0

/-- Per-row processing of the loader: coerce `claps`, keep everything else. -/
def loadRow (r : Row) : Article :=
  ⟨r.url, r.title, r.subtitle, r.text, r.keywords, some (parseClaps r.claps)⟩

/-- Abstract state of the backing CSV file: the file may be missing, or it
yields a list of rows, optionally with an exception raised after `n` rows were
already processed (the `try` block of `load_articles` catches it only after
those rows were appended). -/
inductive FileState where
  | missing
  | present (rows : List Row) (failAfter : Option Nat)

/-- `load_articles` (`api.py` lines 19-39): missing file gives `[]`; otherwise
rows are processed in order, and an exception after `n` rows leaves exactly
the first `n` processed rows in the returned list. -/
def load_articles : FileState → List Article
  | .missing => []
  | .present rows none => rows.map loadRow
  | .present rows (some n) => (rows.take n).map loadRow

/-- `calculate_similarity` (`api.py` lines 42-85), with Python floats as `ℚ`. -/
def calculate_similarity (text : String) (keywords : String) (article : Article) : ℚ :=
  let input_lower := pyLower text
  let input_words := findWords input_lower
  let article_text := pyLower ((article.text.getD "") ++ " " ++ (article.title.getD "") ++
    " " ++ (article.subtitle.getD "") ++ " " ++ (article.keywords.getD ""))
  let article_keywords := pyLower (article.keywords.getD "")
  let article_words := findWords article_text
  if input_words = ∅ then 0
  else
    let intersection := (input_words ∩ article_words).card
    let union := (input_words ∪ article_words).card
    if union = 0 then 0
    else
      let similarity : ℚ := (intersection : ℚ) / (union : ℚ)
      let similarity :=
        if article_keywords ≠ "" then
          let keyword_matches := (input_words.filter (fun word => isSubstr word article_keywords = true)).card
          if 0 < keyword_matches then similarity + (keyword_matches : ℚ) * (1 / 10)
          else similarity
        else similarity
      min similarity 1

/-- Round-half-to-even to an integer, the rounding Python's `round` uses. -/
def roundHalfEven (q : ℚ) : ℤ :=
  let f := ⌊q⌋
  let r := q - (f : ℚ)
  if r < 1 / 2 then f
  else if (1 / 2 : ℚ) < r then f + 1
  else if f % 2 = 0 then f else f + 1

/-- Python's `round(q, 3)`. -/
def round3 (q : ℚ) : ℚ :=
  ((roundHalfEven (q * 1000) : ℤ) : ℚ) / 1000

/-- A scored candidate (`api.py` lines 107-111). -/
structure Scored where
  article : Article
  similarity : ℚ
  claps : Int
deriving DecidableEq

/-- A result summary (`api.py` lines 126-131). -/
structure Summary where
  url : String
  title : String
  claps : Int
  similarity_score : ℚ
deriving DecidableEq

/-- Projection of a scored candidate to a result summary. -/
def formatResult (item : Scored) : Summary :=
  ⟨item.article.url.getD "", item.article.title.getD "",
   item.article.claps.getD 0, round3 item.similarity⟩

/-- The order in which Python's stable `sort(key=lambda x: (similarity, claps),
reverse=True)` arranges two scored candidates: `a` may come before `b` iff
`b`'s key is lexicographically at most `a`'s. -/
def rankRel (a b : Scored) : Prop :=
  b.similarity < a.similarity ∨ (b.similarity = a.similarity ∧ b.claps ≤ a.claps)

instance : DecidableRel rankRel := fun a b => by
  unfold rankRel; infer_instance

instance : IsTotal Scored rankRel := by
  constructor
  intro a b
  rcases lt_trichotomy a.similarity b.similarity with h | h | h
  · exact Or.inr (Or.inl h)
  · rcases le_total a.claps b.claps with hc | hc
    · exact Or.inr (Or.inr ⟨h, hc⟩)
    · exact Or.inl (Or.inr ⟨h.symm, hc⟩)
  · exact Or.inl (Or.inl h)

instance : IsTrans Scored rankRel := by
  constructor
  intro a b c hab hbc
  rcases hab with h1 | ⟨h1, h1c⟩ <;> rcases hbc with h2 | ⟨h2, h2c⟩
  · exact Or.inl (h2.trans h1)
  · exact Or.inl (h2 ▸ h1)
  · exact Or.inl (h1 ▸ h2)
  · exact Or.inr ⟨h2.trans h1, h2c.trans h1c⟩

/-- The scored list built by the loop at `api.py` lines 104-111. -/
def scoredOf (input_text : String) (articles : List Article) : List Scored :=
  articles.map (fun article =>
    ⟨article, calculate_similarity input_text (article.keywords.getD "") article,
     article.claps.getD 0⟩)

/-- The filter at `api.py` line 114: keep strictly positive similarity. -/
def similarOf (input_text : String) (articles : List Article) : List Scored :=
  (scoredOf input_text articles).filter (fun item => decide (0 < item.similarity))

/-- The stable descending sort at `api.py` line 117. -/
def sortedOf (input_text : String) (articles : List Article) : List Scored :=
  List.insertionSort rankRel (similarOf input_text articles)

/-- `find_similar_articles` (`api.py` lines 88-133). -/
def find_similar_articles (input_text : String) (articles : List Article)
    (top_n : Nat) : List Summary :=
  if articles = [] then []
  else ((sortedOf input_text articles).take top_n).map formatResult

/-- Accumulator scan splitting a character list into its maximal runs of
characters satisfying `p`; `cur` holds the current run, reversed. -/
def runsAux (p : Char → Bool) (cur : List Char) : List Char → List (List Char)
  | [] => if cur.isEmpty then [] else [cur.reverse]
  | c :: rest =>
    if p c then runsAux p (c :: cur) rest
    else if cur.isEmpty then runsAux p [] rest
    else cur.reverse :: runsAux p [] rest

/-- Maximal runs of characters satisfying `p`, in order. -/
def runsOf (p : Char → Bool) (l : List Char) : List (List Char) :=
  runsAux p [] l

/-- The token set claim C3 describes: the lowercased maximal alphabetic runs
of length at least 3, regardless of the adjacent characters. -/
def claimTokens (s : String) : Finset String :=
  ((runsOf isAsciiLetter (pyLower s).data).filterMap
    (fun r => if 3 ≤ r.length then some (String.mk r) else none)).toFinset

/-- Keep the runs that are wholly alphabetic and at least 3 long, as strings. -/
def goodRunTokens (rs : List (List Char)) : List String :=
  rs.filterMap
    (fun r => if r.all isAsciiLetter && decide (3 ≤ r.length) then some (String.mk r) else none)

/-- The amended token set: maximal runs of word characters (`[A-Za-z0-9_]`)
that consist only of letters and have length at least 3 — i.e. maximal
alphabetic runs of length at least 3 whose neighbours are not digits or
underscores, as the regex word boundaries require. -/
def amendedTokens (s : String) : Finset String :=
  (goodRunTokens (runsOf isWordChar (pyLower s).data)).toFinset

/-- The scoring formula exactly as claim C1 states it: `min (base + boost, 1)`
with `base` the Jaccard similarity of the two token sets (`0` when the query
yields no tokens or the union is empty) and `boost` `1/10` per distinct query
token occurring as a substring of the article's keyword text (the raw,
untokenized field as the scorer sees it, i.e. lowercased) when that field is
non-empty. -/
def spec_similarity (query : String) (article : Article) : ℚ :=
  let qw := tokenize query
  let aw := tokenize ((article.text.getD "") ++ " " ++ (article.title.getD "") ++
    " " ++ (article.subtitle.getD "") ++ " " ++ (article.keywords.getD ""))
  let kw := pyLower (article.keywords.getD "")
  let base : ℚ :=
    if qw = ∅ ∨ qw ∪ aw = ∅ then 0
    else ((qw ∩ aw).card : ℚ) / ((qw ∪ aw).card : ℚ)
  let boost : ℚ :=
    if kw ≠ "" then ((qw.filter (fun w => isSubstr w kw = true)).card : ℚ) * (1 / 10)
    else 0
  min (base + boost) 1

/-- Fixture: the `i`-th filler word, three lowercase letters starting with
`w`, so all filler words are distinct tokens different from `"qqq"`. -/
def cxWord (i : Nat) : String :=
  String.mk ['w', Char.ofNat (97 + i / 26), Char.ofNat (97 + i % 26)]

/-- Fixture: an article text holding the token `"qqq"` and `n` filler words. -/
def cxText (n : Nat) : String :=
  "qqq " ++ String.intercalate " " ((List.range n).map cxWord)

/-- Fixture: 44 filler words, so the Jaccard base against query `"qqq"` is
`1/45`; zero claps. -/
def cxArtA : Article :=
  ⟨some "uA", some "tA", some "", some (cxText 44), some "", some 0⟩

/-- Fixture: 45 filler words, so the Jaccard base against query `"qqq"` is
`1/46`; 100 claps. -/
def cxArtB : Article :=
  ⟨some "uB", some "tB", some "", some (cxText 45), some "", some 100⟩

/-- Fixture: a row whose article shares no token with the query `"qqq"`. -/
def cxRowZ : Row :=
  ⟨some "u", some "t", some "", some "zzz zzz", some "", some "5"⟩

/-- Fixture: a row whose claps value parses to a negative integer. -/
def cxRowNeg : Row :=
  ⟨some "u", some "t", some "", some "body", some "kw", some "-5"⟩

/-- Fixture: an article record with every field absent. -/
def cxArtNone : Article :=
  ⟨none, none, none, none, none, none⟩

/-- An HTTP response of the service, as far as the claims observe it. -/
inductive Resp where
  | badRequest (error : String)
  | notFound (error : String)
  | ok (query : String) (total_articles : Nat) (results_count : Nat) (results : List Summary)
deriving DecidableEq

/-- The 404 message both search endpoints use. -/
def noArticlesMsg : String :=
  "No articles found. Please ensure scrapping_results.csv exists and contains data."

/-- The POST `/search` handler (`api.py` lines 149-190).  `data` is the parsed
JSON body: `none` for a missing/empty body, otherwise the optional `query`
field.  The `except` clause cannot fire in this pure model. -/
def search_articles (data : Option (Option String)) (fs : FileState) : Resp :=
  match data with
  | none => .badRequest "No JSON data provided"
  | some body =>
    let query := pyStrip (body.getD "")
    if query = "" then .badRequest "Query parameter is required"
    else
      let articles := load_articles fs
      if articles = [] then .notFound noArticlesMsg
      else
        let results := find_similar_articles query articles 10
        .ok query articles.length results.length results

/-- The GET `/search` handler (`api.py` lines 204-232); `q` is the optional
query-string parameter. -/
def search_articles_get (q : Option String) (fs : FileState) : Resp :=
  let query := pyStrip (q.getD "")
  if query = "" then .badRequest "Query parameter \"q\" is required"
  else
    let articles := load_articles fs
    if articles = [] then .notFound noArticlesMsg
    else
      let results := find_similar_articles query articles 10
      .ok query articles.length results.length results

/-! ## Helper lemmas -/

/-- The similarity the code computes is never negative. -/
theorem calcSimNonneg (text kws : String) (article : Article) :
    0 ≤ calculate_similarity text kws article := by
  simp only [calculate_similarity]
  split_ifs with h1 h2 h3 h4
  · exact le_refl 0
  · exact le_refl 0
  all_goals refine le_min ?_ zero_le_one
  all_goals positivity

/-- The similarity the code computes never exceeds one. -/
theorem calcSimLeOne (text kws : String) (article : Article) :
    calculate_similarity text kws article ≤ 1 := by
  simp only [calculate_similarity]
  split_ifs with h1 h2 h3 h4
  · exact zero_le_one
  · exact zero_le_one
  all_goals exact min_le_right _ _

/-- The code's similarity and the specification formula agree. -/
theorem calcSimEqSpec (text kws : String) (article : Article) :
    calculate_similarity text kws article = spec_similarity text article := by
  simp only [calculate_similarity, spec_similarity, tokenize]
  by_cases h1 : findWords (pyLower text) = ∅
  · simp only [h1, if_pos, Finset.filter_empty, Finset.card_empty, Nat.cast_zero, zero_mul,
      ite_self, true_or, if_true, add_zero]
    exact (min_eq_left zero_le_one).symm
  · have hq : (findWords (pyLower text)).Nonempty := Finset.nonempty_iff_ne_empty.mpr h1
    have hu : (findWords (pyLower text) ∪ findWords (pyLower ((article.text.getD "") ++ " " ++
        (article.title.getD "") ++ " " ++ (article.subtitle.getD "") ++ " " ++
        (article.keywords.getD "")))).Nonempty := hq.mono Finset.subset_union_left
    have hcond : ¬(findWords (pyLower text) = ∅ ∨ (findWords (pyLower text) ∪
        findWords (pyLower ((article.text.getD "") ++ " " ++ (article.title.getD "") ++ " " ++
          (article.subtitle.getD "") ++ " " ++ (article.keywords.getD "")))) = ∅) := by
      rintro (ha | hb)
      · exact h1 ha
      · exact hu.ne_empty hb
    rw [if_neg h1, if_neg (Finset.card_pos.mpr hu).ne', if_neg hcond]
    by_cases hk : pyLower (article.keywords.getD "") = ""
    · simp only [hk, ne_eq, not_true_eq_false, if_false, add_zero]
    · by_cases hm : 0 < ((findWords (pyLower text)).filter
        (fun word => isSubstr word (pyLower (article.keywords.getD "")) = true)).card
      · simp only [ne_eq, hk, not_false_eq_true, if_true, hm]
      · have hm0 : ((findWords (pyLower text)).filter
            (fun word => isSubstr word (pyLower (article.keywords.getD "")) = true)).card = 0 :=
          Nat.eq_zero_of_not_pos hm
        simp only [ne_eq, hk, not_false_eq_true, if_true, hm0, lt_self_iff_false,
          if_false, Nat.cast_zero, zero_mul, add_zero]

/-- Letters are word characters. -/
theorem letterIsWord {c : Char} (h : isAsciiLetter c = true) : isWordChar c = true := by
  simp [isWordChar, h]

/-- Unfolding `goodRunTokens` over a cons. -/
theorem goodRunTokensCons (r : List Char) (rs : List (List Char)) :
    goodRunTokens (r :: rs) =
      (if r.all isAsciiLetter && decide (3 ≤ r.length) then [String.mk r] else []) ++
        goodRunTokens rs := by
  simp only [goodRunTokens, List.filterMap_cons]
  by_cases h : (r.all isAsciiLetter && decide (3 ≤ r.length)) = true
  · simp [h]
  · simp [h]

/-- The regex scan agrees with splitting into maximal word-character runs and
keeping the all-letter runs of length at least 3.  The invariant couples the
scan state with the run accumulator: `out` goes with an empty accumulator,
`poisoned` with a non-empty accumulator containing a non-letter, and `run cs`
with the accumulator being exactly the (all-letter, non-empty) `cs`. -/
theorem scanEqGoodRuns :
    ∀ (l : List Char) (st : ScanSt) (cur : List Char),
      ((st = .out ∧ cur = []) ∨
       (st = .poisoned ∧ cur ≠ [] ∧ cur.all isAsciiLetter = false) ∨
       (st = .run cur ∧ cur ≠ [] ∧ cur.all isAsciiLetter = true)) →
      scanTokens st l = goodRunTokens (runsAux isWordChar cur l) := by
  intro l
  induction l with
  | nil =>
    rintro st cur (⟨rfl, rfl⟩ | ⟨rfl, h2, h3⟩ | ⟨rfl, h2, h3⟩)
    · rfl
    · have hne : cur.isEmpty = false := by
        cases cur
        · exact absurd rfl h2
        · rfl
      simp only [scanTokens, runsAux, hne, Bool.false_eq_true, if_false, goodRunTokensCons,
        List.all_reverse, h3, Bool.false_and, List.nil_append]
      rfl
    · have hne : cur.isEmpty = false := by
        cases cur
        · exact absurd rfl h2
        · rfl
      simp only [scanTokens, runsAux, hne, Bool.false_eq_true, if_false, goodRunTokensCons,
        List.all_reverse, h3, Bool.true_and, List.length_reverse, List.append_nil]
      by_cases hlen : 3 ≤ cur.length
      · rw [if_pos hlen, if_pos (by exact decide_eq_true hlen)]
        rfl
      · rw [if_neg hlen, if_neg (by simpa using hlen)]
        rfl
  | cons c rest ih =>
    rintro st cur (⟨rfl, rfl⟩ | ⟨rfl, h2, h3⟩ | ⟨rfl, h2, h3⟩)
    · by_cases hl : isAsciiLetter c = true
      · have hw := letterIsWord hl
        simp only [scanTokens, hl, hw, if_true, runsAux]
        exact ih _ _ (Or.inr (Or.inr ⟨rfl, by simp, by simp [hl]⟩))
      · by_cases hw : isWordChar c = true
        · simp only [scanTokens, hl, Bool.false_eq_true, if_false, hw, if_true, runsAux,
            List.isEmpty_nil]
          exact ih _ _ (Or.inr (Or.inl ⟨rfl, by simp, by simp [hl]⟩))
        · simp only [scanTokens, hl, Bool.false_eq_true, if_false, hw, runsAux,
            List.isEmpty_nil, if_true]
          exact ih _ _ (Or.inl ⟨rfl, rfl⟩)
    · have hne : cur.isEmpty = false := by
        cases cur
        · exact absurd rfl h2
        · rfl
      by_cases hw : isWordChar c = true
      · simp only [scanTokens, hw, if_true, runsAux]
        exact ih _ _ (Or.inr (Or.inl ⟨rfl, by simp, by simp [List.all_cons, h3]⟩))
      · simp only [scanTokens, hw, Bool.false_eq_true, if_false, runsAux, hne]
        rw [goodRunTokensCons]
        simp only [List.all_reverse, h3, Bool.false_and, Bool.false_eq_true, if_false,
          List.nil_append]
        exact ih _ _ (Or.inl ⟨rfl, rfl⟩)
    · have hne : cur.isEmpty = false := by
        cases cur
        · exact absurd rfl h2
        · rfl
      by_cases hl : isAsciiLetter c = true
      · have hw := letterIsWord hl
        simp only [scanTokens, hl, hw, if_true, runsAux]
        exact ih _ _ (Or.inr (Or.inr ⟨rfl, by simp, by simp [List.all_cons, hl, h3]⟩))
      · by_cases hw : isWordChar c = true
        · simp only [scanTokens, hl, Bool.false_eq_true, if_false, hw, if_true, runsAux]
          exact ih _ _ (Or.inr (Or.inl ⟨rfl, by simp, by simp [List.all_cons, hl]⟩))
        · simp only [scanTokens, hl, Bool.false_eq_true, if_false, hw, runsAux, hne]
          rw [goodRunTokensCons, ih _ _ (Or.inl ⟨rfl, rfl⟩)]
          simp only [List.all_reverse, h3, Bool.true_and, List.length_reverse]
          by_cases hlen : 3 ≤ cur.length
          · rw [if_pos hlen, if_pos (by exact decide_eq_true hlen)]
          · rw [if_neg hlen, if_neg (by simpa using hlen)]

/-- Inserting an element that satisfies `p` and sorts no later than every
`p`-element puts it at the head of the `p`-filtered list. -/
theorem filterOrderedInsertPos (p : Scored → Bool) (x : Scored) (hx : p x = true)
    (hkey : ∀ y, p y = true → rankRel x y) :
    ∀ l : List Scored, (List.orderedInsert rankRel x l).filter p = x :: l.filter p
  | [] => by simp [List.orderedInsert, hx]
  | y :: ys => by
    by_cases hr : rankRel x y
    · rw [List.orderedInsert, if_pos hr, List.filter_cons_of_pos hx]
    · have hpy : p y = false := by
        cases hpy : p y
        · rfl
        · exact absurd (hkey y hpy) hr
      rw [List.orderedInsert, if_neg hr, List.filter_cons_of_neg (by simp [hpy]),
        filterOrderedInsertPos p x hx hkey ys, List.filter_cons_of_neg (by simp [hpy])]

/-- Inserting an element that fails `p` leaves the `p`-filtered list alone. -/
theorem filterOrderedInsertNeg (p : Scored → Bool) (x : Scored) (hx : p x = false) :
    ∀ l : List Scored, (List.orderedInsert rankRel x l).filter p = l.filter p
  | [] => by simp [List.orderedInsert, hx]
  | y :: ys => by
    by_cases hr : rankRel x y
    · rw [List.orderedInsert, if_pos hr, List.filter_cons_of_neg (by simp [hx])]
    · by_cases hpy : p y = true
      · rw [List.orderedInsert, if_neg hr, List.filter_cons_of_pos hpy,
          filterOrderedInsertNeg p x hx ys, List.filter_cons_of_pos hpy]
      · rw [List.orderedInsert, if_neg hr, List.filter_cons_of_neg hpy,
          filterOrderedInsertNeg p x hx ys, List.filter_cons_of_neg hpy]

/-- Stability of the sort: elements with one fixed `(similarity, claps)` key
keep their relative order — filtering the sorted list by a key gives the same
list as filtering the input. -/
theorem filterInsertionSortKey (s : ℚ) (c : Int) :
    ∀ l : List Scored,
      (List.insertionSort rankRel l).filter (fun x => decide (x.similarity = s ∧ x.claps = c)) =
        l.filter (fun x => decide (x.similarity = s ∧ x.claps = c))
  | [] => rfl
  | x :: xs => by
    rw [List.insertionSort]
    by_cases hp : (fun x : Scored => decide (x.similarity = s ∧ x.claps = c)) x = true
    · have hx' : x.similarity = s ∧ x.claps = c := by simpa using hp
      have hkey : ∀ y, (fun x : Scored => decide (x.similarity = s ∧ x.claps = c)) y = true →
          rankRel x y := by
        intro y hy
        have hy' : y.similarity = s ∧ y.claps = c := by simpa using hy
        exact Or.inr ⟨hy'.1.trans hx'.1.symm, le_of_eq (hy'.2.trans hx'.2.symm)⟩
      rw [filterOrderedInsertPos _ _ hp hkey _, filterInsertionSortKey s c xs]
      simp [List.filter_cons, hx']
    · have hx' : ¬(x.similarity = s ∧ x.claps = c) := by simpa using hp
      rw [filterOrderedInsertNeg _ _ (by simpa using hp) _, filterInsertionSortKey s c xs]
      simp [List.filter_cons, hx']

/-- `find_similar_articles` is the projection of the truncated sorted list
(also when the input list is empty). -/
theorem findEqProj (q : String) (arts : List Article) (n : Nat) :
    find_similar_articles q arts n = ((sortedOf q arts).take n).map formatResult := by
  unfold find_similar_articles
  by_cases h : arts = []
  · subst h
    rw [if_pos rfl]
    simp [sortedOf, similarOf, scoredOf]
  · rw [if_neg h]

/-- Score of fixture article A against query `"qqq"`: Jaccard `1/45`, no boost. -/
theorem cxSimA : calculate_similarity "qqq" "" cxArtA = 1 / 45 := by
  have hne : ¬ (findWords (pyLower "qqq") = ∅) := by decide
  have hint : ((findWords (pyLower "qqq")) ∩ findWords (pyLower ((cxArtA.text.getD "") ++ " " ++
      (cxArtA.title.getD "") ++ " " ++ (cxArtA.subtitle.getD "") ++ " " ++
      (cxArtA.keywords.getD "")))).card = 1 := by decide
  have huni : ((findWords (pyLower "qqq")) ∪ findWords (pyLower ((cxArtA.text.getD "") ++ " " ++
      (cxArtA.title.getD "") ++ " " ++ (cxArtA.subtitle.getD "") ++ " " ++
      (cxArtA.keywords.getD "")))).card = 45 := by decide
  have hkw : pyLower (cxArtA.keywords.getD "") = "" := by decide
  simp only [calculate_similarity, hint, huni, hkw, ne_eq, not_true_eq_false, if_false]
  rw [if_neg hne, if_neg (by norm_num)]
  norm_num

/-- Score of fixture article B against query `"qqq"`: Jaccard `1/46`, no boost. -/
theorem cxSimB : calculate_similarity "qqq" "" cxArtB = 1 / 46 := by
  have hne : ¬ (findWords (pyLower "qqq") = ∅) := by decide
  have hint : ((findWords (pyLower "qqq")) ∩ findWords (pyLower ((cxArtB.text.getD "") ++ " " ++
      (cxArtB.title.getD "") ++ " " ++ (cxArtB.subtitle.getD "") ++ " " ++
      (cxArtB.keywords.getD "")))).card = 1 := by decide
  have huni : ((findWords (pyLower "qqq")) ∪ findWords (pyLower ((cxArtB.text.getD "") ++ " " ++
      (cxArtB.title.getD "") ++ " " ++ (cxArtB.subtitle.getD "") ++ " " ++
      (cxArtB.keywords.getD "")))).card = 46 := by decide
  have hkw : pyLower (cxArtB.keywords.getD "") = "" := by decide
  simp only [calculate_similarity, hint, huni, hkw, ne_eq, not_true_eq_false, if_false]
  rw [if_neg hne, if_neg (by norm_num)]
  norm_num

/-- Both fixture scores round to the same three decimals: `round(1/45, 3) = 0.022`. -/
theorem round3A : round3 (1 / 45 : ℚ) = 22 / 1000 := by
  have hf : ⌊(1 / 45 : ℚ) * 1000⌋ = 22 := by
    rw [Int.floor_eq_iff]
    norm_num
  simp only [round3, roundHalfEven, hf]
  norm_num

/-- `round(1/46, 3) = 0.022` as well. -/
theorem round3B : round3 (1 / 46 : ℚ) = 22 / 1000 := by
  have hf : ⌊(1 / 46 : ℚ) * 1000⌋ = 21 := by
    rw [Int.floor_eq_iff]
    norm_num
  simp only [round3, roundHalfEven, hf]
  norm_num

/-- Full evaluation of the ranker on the two fixture articles: distinct raw
scores `1/45 > 1/46`, identical rounded scores, claps `0` before claps `100`. -/
theorem cxFindEval : find_similar_articles "qqq" [cxArtA, cxArtB] 10 =
    [⟨"uA", "tA", 0, 22 / 1000⟩, ⟨"uB", "tB", 100, 22 / 1000⟩] := by
  have hkA : cxArtA.keywords.getD "" = "" := rfl
  have hkB : cxArtB.keywords.getD "" = "" := rfl
  have hcA : cxArtA.claps.getD 0 = 0 := rfl
  have hcB : cxArtB.claps.getD 0 = 100 := rfl
  have hs : scoredOf "qqq" [cxArtA, cxArtB] =
      [⟨cxArtA, 1 / 45, 0⟩, ⟨cxArtB, 1 / 46, 100⟩] := by
    simp only [scoredOf, List.map_cons, List.map_nil, hkA, hkB, hcA, hcB, cxSimA, cxSimB]
  have hfil : similarOf "qqq" [cxArtA, cxArtB] =
      [⟨cxArtA, 1 / 45, 0⟩, ⟨cxArtB, 1 / 46, 100⟩] := by
    rw [similarOf, hs]
    have h45 : (0 : ℚ) < 1 / 45 := by norm_num
    have h46 : (0 : ℚ) < 1 / 46 := by norm_num
    simp [List.filter_cons, h45, h46]
  have hr : rankRel ⟨cxArtA, 1 / 45, 0⟩ ⟨cxArtB, 1 / 46, 100⟩ := Or.inl (by norm_num)
  have hsort : sortedOf "qqq" [cxArtA, cxArtB] =
      [⟨cxArtA, 1 / 45, 0⟩, ⟨cxArtB, 1 / 46, 100⟩] := by
    rw [sortedOf, hfil, List.insertionSort, List.insertionSort, List.insertionSort,
      List.orderedInsert, List.orderedInsert, if_pos hr]
  rw [findEqProj, hsort, List.take_of_length_le (by norm_num)]
  simp only [List.map_cons, List.map_nil, formatResult, cxArtA, cxArtB, Option.getD_some]
  rw [round3A, round3B]

/-- The article of fixture row Z shares no token with query `"qqq"`. -/
theorem cxSimZ : calculate_similarity "qqq" ((loadRow cxRowZ).keywords.getD "")
    (loadRow cxRowZ) = 0 := by
  have hne : ¬ (findWords (pyLower "qqq") = ∅) := by decide
  have hint : ((findWords (pyLower "qqq")) ∩ findWords (pyLower (((loadRow cxRowZ).text.getD "") ++ " " ++
      ((loadRow cxRowZ).title.getD "") ++ " " ++ ((loadRow cxRowZ).subtitle.getD "") ++ " " ++
      ((loadRow cxRowZ).keywords.getD "")))).card = 0 := by decide
  have huni : ((findWords (pyLower "qqq")) ∪ findWords (pyLower (((loadRow cxRowZ).text.getD "") ++ " " ++
      ((loadRow cxRowZ).title.getD "") ++ " " ++ ((loadRow cxRowZ).subtitle.getD "") ++ " " ++
      ((loadRow cxRowZ).keywords.getD "")))).card = 2 := by decide
  have hkw : pyLower ((loadRow cxRowZ).keywords.getD "") = "" := by decide
  simp only [calculate_similarity, hint, huni, hkw, ne_eq, not_true_eq_false, if_false]
  rw [if_neg hne, if_neg (by norm_num)]
  norm_num

/-- The ranker returns nothing for query `"qqq"` over fixture row Z alone. -/
theorem cxFindZ : find_similar_articles "qqq" [loadRow cxRowZ] 10 = [] := by
  have hc : (loadRow cxRowZ).claps.getD 0 = 5 := by decide
  have hs : scoredOf "qqq" [loadRow cxRowZ] = [⟨loadRow cxRowZ, 0, 5⟩] := by
    simp only [scoredOf, List.map_cons, List.map_nil, cxSimZ, hc]
  have hfil : similarOf "qqq" [loadRow cxRowZ] = [] := by
    rw [similarOf, hs]
    simp [List.filter_cons, lt_irrefl]
  rw [findEqProj, sortedOf, hfil]
  rfl

/-! ## Claims -/

/-- C1: for every query string and article record, `calculate_similarity`
returns `min (base + boost, 1)` where `base` is the Jaccard similarity of the
query token set and the token set of the concatenated text/title/subtitle/
keywords fields (`0` when the query yields no tokens or the union is empty)
and `boost` is `1/10` per distinct query token occurring as a substring of the
article's keyword text when that field is non-empty. -/
theorem claim1_similarity_formula (text kws : String) (article : Article) :
    calculate_similarity text kws article = spec_similarity text article :=
  calcSimEqSpec text kws article

/-- C2: for every query string and every article record, the similarity score
lies in the closed interval `[0, 1]`. -/
theorem claim2_score_in_unit_interval (text kws : String) (article : Article) :
    0 ≤ calculate_similarity text kws article ∧ calculate_similarity text kws article ≤ 1 :=
  ⟨calcSimNonneg text kws article, calcSimLeOne text kws article⟩

/-- C3 counterexample: on `"abc1"` the scorer extracts no token at all, while
the claim's token set (maximal alphabetic runs of length at least 3 regardless
of adjacent characters) contains `"abc"` — the regex word boundary `\b` fails
between `c` and the digit `1`. -/
theorem claim3_counterexample :
    tokenize "abc1" = ∅ ∧ claimTokens "abc1" = {"abc"} ∧
      tokenize "abc1" ≠ claimTokens "abc1" := by
  decide

/-- C3 amended: the token set equals the set of lowercased maximal alphabetic
runs of length at least 3 that are not adjacent to any other word character —
equivalently, the maximal runs of word characters (`[A-Za-z0-9_]`) that consist
solely of letters and have length at least 3, lowercased. -/
theorem claim3_amended_tokenizer (s : String) : tokenize s = amendedTokens s := by
  unfold tokenize findWords amendedTokens runsOf
  exact congrArg List.toFinset (scanEqGoodRuns (pyLower s).data .out [] (Or.inl ⟨rfl, rfl⟩))

/-- C4 counterexample: two articles whose raw scores are `1/45 > 1/46` round
to the same `0.022`; the higher-raw-score article has 0 claps and is listed
first, so the rounded scores carried in the output violate the claimed
adjacent-pair invariant (equal rounded scores but claps `0 < 100`). -/
theorem claim4_counterexample :
    ¬ List.Chain' (fun a b : Summary => b.similarity_score < a.similarity_score ∨
        (b.similarity_score = a.similarity_score ∧ b.claps ≤ a.claps))
      (find_similar_articles "qqq" [cxArtA, cxArtB] 10) := by
  rw [cxFindEval]
  simp only [List.chain'_cons, List.chain'_singleton, and_true]
  rintro (h | ⟨-, h⟩)
  · exact lt_irrefl _ h
  · exact absurd h (by norm_num)

/-- C4 amended: the adjacent-pair ordering invariant holds for the raw
(unrounded) scores the ranker sorts by: the output is the projection of the
truncated sorted list, and along that list each adjacent pair has strictly
decreasing similarity, or equal similarity and non-increasing claps. -/
theorem claim4_amended_ordering (q : String) (arts : List Article) (n : Nat) :
    List.Chain' (fun a b : Scored => b.similarity < a.similarity ∨
        (b.similarity = a.similarity ∧ b.claps ≤ a.claps)) ((sortedOf q arts).take n) ∧
    find_similar_articles q arts n = ((sortedOf q arts).take n).map formatResult := by
  constructor
  · have hp : (sortedOf q arts).Pairwise rankRel := by
      rw [sortedOf]
      exact List.sorted_insertionSort rankRel _
    exact (hp.sublist (List.take_sublist n _)).chain'
  · exact findEqProj q arts n

/-- C5: the ranker discards exactly the candidates with non-positive score
(strict threshold), every candidate surviving into the truncated sorted list
has strictly positive similarity, and the output length is at most
`min topN (number of articles with positive similarity)`. -/
theorem claim5_threshold_and_length (q : String) (arts : List Article) (n : Nat) :
    find_similar_articles q arts n =
      ((List.insertionSort rankRel ((scoredOf q arts).filter
        (fun item => decide (0 < item.similarity)))).take n).map formatResult ∧
    ((sortedOf q arts).take n).all (fun x => decide (0 < x.similarity)) = true ∧
    (find_similar_articles q arts n).length ≤
      min n ((scoredOf q arts).countP (fun item => decide (0 < item.similarity))) := by
  refine ⟨findEqProj q arts n, ?_, ?_⟩
  · rw [List.all_eq_true]
    intro x hx
    have hx1 : x ∈ sortedOf q arts := List.mem_of_mem_take hx
    rw [sortedOf] at hx1
    have hx2 : x ∈ similarOf q arts := (List.mem_insertionSort rankRel).mp hx1
    rw [similarOf] at hx2
    exact (List.mem_filter.mp hx2).2
  · rw [findEqProj, List.length_map, List.length_take]
    have h1 : (sortedOf q arts).length = (similarOf q arts).length := by
      rw [sortedOf]
      exact List.length_insertionSort rankRel _
    have h2 : (similarOf q arts).length =
        (scoredOf q arts).countP (fun item => decide (0 < item.similarity)) := by
      rw [similarOf]
      exact (List.countP_eq_length_filter _ _).symm
    rw [h1, h2]

/-- C6 counterexample: a row whose claps value is `"-5"` loads to claps `-5`,
which is negative — the parse result is not coerced to be non-negative. -/
theorem claim6_counterexample :
    load_articles (.present [cxRowNeg] none) = [loadRow cxRowNeg] ∧
    (loadRow cxRowNeg).claps = some (-5) ∧ ((-5 : ℤ) < 0) := by
  decide

/-- C6 amended: the claps field of every produced article record is an integer
equal to the integer parse of the row's claps value when that succeeds and `0`
when the value is absent, empty, or fails to parse; a claps parse failure
never raises and never drops the row (the loaded list has one record per
row). -/
theorem claim6_amended_claps :
    (∀ v : Option String, parseClaps v = (v.bind (fun s => parsePyInt s)).getD 0) ∧
    (∀ r : Row, (loadRow r).claps = some (parseClaps r.claps)) ∧
    (∀ rows : List Row, (load_articles (.present rows none)).length = rows.length) := by
  refine ⟨?_, fun r => rfl, fun rows => by simp [load_articles]⟩
  intro v
  match v with
  | none => rfl
  | some s =>
    by_cases h : s = ""
    · subst h
      rfl
    · simp [parseClaps, h, Option.bind]

/-- C7 counterexample: an exception after the first of two rows leaves the
loader returning a partially loaded one-element list, not the empty
sequence. -/
theorem claim7_counterexample :
    load_articles (.present [cxRowZ, cxRowNeg] (some 1)) = [loadRow cxRowZ] ∧
    load_articles (.present [cxRowZ, cxRowNeg] (some 1)) ≠ [] := by
  constructor
  · rfl
  · decide

/-- C7 amended: `load_articles` never raises: a missing file yields the empty
sequence, a clean read yields one record per row, and a file-level failure
after `n` rows is caught and yields exactly the first `n` loaded records (a
prefix of the clean result — possibly partial, not necessarily empty). -/
theorem claim7_amended_loader :
    load_articles .missing = [] ∧
    (∀ rows : List Row, load_articles (.present rows none) = rows.map loadRow) ∧
    (∀ (rows : List Row) (n : Nat),
      load_articles (.present rows (some n)) = (load_articles (.present rows none)).take n) := by
  refine ⟨rfl, fun rows => rfl, fun rows n => ?_⟩
  simp [load_articles, List.map_take]

/-- C8 counterexample: with one loaded article that matches nothing, the
query `"qqq"` gets a success response with an empty result list from both
endpoints — not a not-found response. -/
theorem claim8_counterexample :
    search_articles (some (some "qqq")) (.present [cxRowZ] none) = .ok "qqq" 1 0 [] ∧
    search_articles_get (some "qqq") (.present [cxRowZ] none) = .ok "qqq" 1 0 [] := by
  have hload : load_articles (.present [cxRowZ] none) = [loadRow cxRowZ] := rfl
  have hstrip : pyStrip "qqq" = "qqq" := by decide
  have hne : ¬(("qqq" : String) = "") := by decide
  have hnil : ¬([loadRow cxRowZ] = ([] : List Article)) := by decide
  constructor
  · simp only [search_articles, Option.getD_some, hstrip, hload]
    rw [if_neg hne, if_neg hnil, cxFindZ]
    rfl
  · simp only [search_articles_get, Option.getD_some, hstrip, hload]
    rw [if_neg hne, if_neg hnil, cxFindZ]
    rfl

/-- C8 amended: for a non-empty (stripped) query, the endpoints return the
not-found response exactly when no articles load at all; when articles are
loaded — even if none matches — they return a success response carrying the
(possibly empty) ranked results. -/
theorem claim8_amended_endpoints (s : String) (fs : FileState) (h : pyStrip s ≠ "") :
    (load_articles fs = [] →
      search_articles (some (some s)) fs = .notFound noArticlesMsg ∧
      search_articles_get (some s) fs = .notFound noArticlesMsg) ∧
    (load_articles fs ≠ [] →
      search_articles (some (some s)) fs =
        .ok (pyStrip s) (load_articles fs).length
          (find_similar_articles (pyStrip s) (load_articles fs) 10).length
          (find_similar_articles (pyStrip s) (load_articles fs) 10) ∧
      search_articles_get (some s) fs =
        .ok (pyStrip s) (load_articles fs).length
          (find_similar_articles (pyStrip s) (load_articles fs) 10).length
          (find_similar_articles (pyStrip s) (load_articles fs) 10)) := by
  constructor
  · intro he
    constructor
    · simp only [search_articles, Option.getD_some]
      rw [if_neg h, he, if_pos rfl]
    · simp only [search_articles_get, Option.getD_some]
      rw [if_neg h, he, if_pos rfl]
  · intro hne
    constructor
    · simp only [search_articles, Option.getD_some]
      rw [if_neg h, if_neg hne]
    · simp only [search_articles_get, Option.getD_some]
      rw [if_neg h, if_neg hne]

/-- C8 amended witness: query `"qqq"` against a missing file. -/
theorem claim8_amended_witness :
    pyStrip "qqq" ≠ "" ∧
    (search_articles (some (some "qqq")) .missing = .notFound noArticlesMsg ∧
     search_articles_get (some "qqq") .missing = .notFound noArticlesMsg) :=
  ⟨by decide, (claim8_amended_endpoints "qqq" .missing (by decide)).1 rfl⟩

/-- C9: the descending sort is stable: within one `(similarity, claps)` key
the sorted list lists candidates in exactly the order the (order-preserving)
scoring and filtering steps produced them from the input article list; the
output is the projection of the truncated sorted list. -/
theorem claim9_stable_sort (q : String) (arts : List Article) (s : ℚ) (c : Int) (n : Nat) :
    (sortedOf q arts).filter (fun x => decide (x.similarity = s ∧ x.claps = c)) =
      (similarOf q arts).filter (fun x => decide (x.similarity = s ∧ x.claps = c)) ∧
    find_similar_articles q arts n = ((sortedOf q arts).take n).map formatResult := by
  constructor
  · rw [sortedOf]
    exact filterInsertionSortKey s c _
  · exact findEqProj q arts n

/-- C10: scoring treats missing text fields as the empty string, and the
result summary uses `""` for a missing url or title and `0` for a missing
claps value; neither scoring nor projection can fail (both are total). -/
theorem claim10_missing_fields (text kws : String) (a : Article) (s : ℚ) (c : Int) :
    calculate_similarity text kws a =
      calculate_similarity text kws
        ⟨a.url, some (a.title.getD ""), some (a.subtitle.getD ""), some (a.text.getD ""),
          some (a.keywords.getD ""), a.claps⟩ ∧
    (a.url = none → (formatResult ⟨a, s, c⟩).url = "") ∧
    (a.title = none → (formatResult ⟨a, s, c⟩).title = "") ∧
    (a.claps = none → (formatResult ⟨a, s, c⟩).claps = 0) := by
  refine ⟨?_, fun h => by simp [formatResult, h], fun h => by simp [formatResult, h],
    fun h => by simp [formatResult, h]⟩
  simp only [calculate_similarity, Option.getD_some]

/-- C10 witness: the all-missing article record. -/
theorem claim10_witness :
    cxArtNone.url = none ∧ cxArtNone.title = none ∧ cxArtNone.claps = none ∧
    (formatResult ⟨cxArtNone, 0, 0⟩).url = "" ∧
    (formatResult ⟨cxArtNone, 0, 0⟩).title = "" ∧
    (formatResult ⟨cxArtNone, 0, 0⟩).claps = 0 :=
  ⟨rfl, rfl, rfl, (claim10_missing_fields "" "" cxArtNone 0 0).2.1 rfl,
   (claim10_missing_fields "" "" cxArtNone 0 0).2.2.1 rfl,
   (claim10_missing_fields "" "" cxArtNone 0 0).2.2.2 rfl⟩
